import Mathlib

/-!
Verification of the hybrid query routing and retrieval core of a game-data
RAG system (`src/rag/hybrid_query_engine.py` and `src/rag/query_engine.py`).

Questions and other free-form text are modelled as `List Char`; Python's
`str.lower`, substring tests (`kw in s`), slicing and regex scans are
embedded as executable functions over character lists.  External services
(the embedding provider, the vector index, the relational store's row sets
and the generative model) are modelled as explicit parameters: row tables
are passed in as lists, and each network call's output is an oracle value
or function supplied to the embedded operation.  Machine behaviour that the
source delegates to MySQL (`WHERE id IN`, `LIKE '%kw%'`) is embedded as the
corresponding list filter.
-/

/-- Shorthand: the character list of a string literal. -/
def S (s : String) : List Char := s.data

/-- Python `str.lower()` restricted to its ASCII action (the questions and
keywords in scope are ASCII). -/
def lowerL (l : List Char) : List Char := l.map Char.toLower

/-- One list starts with another, comparing characters with `==`. -/
def isPref : List Char → List Char → Bool
  | [], _ => true
  | _ :: _, [] => false
  | a :: as, b :: bs => a == b && isPref as bs

/-- Python's `needle in haystack` substring test. -/
def containsSub (n : List Char) : List Char → Bool
  | [] => isPref n []
  | c :: t => isPref n (c :: t) || containsSub n t

/-- ASCII uppercase letter, the regex class `[A-Z]` and (on the ASCII
questions in scope) Python's `char.isupper()`. -/
def isUpp (c : Char) : Bool := 'A' ≤ c && c ≤ 'Z'

/-- ASCII lowercase letter, the regex class `[a-z]`. -/
def isLow (c : Char) : Bool := 'a' ≤ c && c ≤ 'z'

/-- ASCII digit. -/
def isDigitCh (c : Char) : Bool := '0' ≤ c && c ≤ '9'

/-- Regex word character `\w` (ASCII fragment). -/
def isWordChar (c : Char) : Bool := isUpp c || isLow c || isDigitCh c || c == '_'

/-- Regex whitespace `\s` (ASCII fragment: space, tab, LF, VT, FF, CR). -/
def isSpaceCh (c : Char) : Bool :=
  c == ' ' || c == '\t' || c == '\n' || c == '\r' || c.val == 11 || c.val == 12

/-- A double or single quotation mark (codepoint 34 or 39), the regex
class used by the quoted-string pass. -/
def isQuote (c : Char) : Bool := c.val == 34 || c.val == 39

/-- Conceptual-signal keywords of `HybridFalloutRAG.classify_intent`,
checked first. -/
def conceptual_keywords : List (List Char) :=
  [S "best", S "worst", S "top", S "similar to", S "like", S "recommend",
   S "build for", S "good for", S "synergize", S "complement", S "work with",
   S "compare", S "versus", S "vs", S "better than",
   S "bloodied", S "stealth", S "tank", S "vats", S "heavy gunner",
   S "rifleman", S "commando", S "melee", S "unarmed", S "shotgunner",
   S "mutations for", S "perks for", S "weapons for", S "armor for"]

/-- Exact-signal keywords of `HybridFalloutRAG.classify_intent`, checked
second. -/
def exact_keywords : List (List Char) :=
  [S "show me all", S "list all", S "how many",
   S "damage of", S "stats of", S "effect of", S "ranks of",
   S "what are the stats", S "what are the effects", S "what are the ranks"]

/-- `HybridFalloutRAG.classify_intent`: ordered keyword rules, conceptual
keywords first, then exact keywords, then the "what is/what does" plus
any-uppercase-character rule, defaulting to CONCEPTUAL. -/
def classify_intent (question : List Char) : String :=
  let question_lower := lowerL question
  if conceptual_keywords.any (fun k => containsSub k question_lower) then
    "CONCEPTUAL"
  else if exact_keywords.any (fun k => containsSub k question_lower) then
    "EXACT"
  else if containsSub (S "what is") question_lower
          || containsSub (S "what does") question_lower then
    if question.any isUpp then "EXACT" else "CONCEPTUAL"
  else
    "CONCEPTUAL"

/-- A detected category filter: the `type` tag and the SQL LIKE pattern,
as in `HybridFalloutRAG.detect_category_filter`. -/
structure CategoryFilter where
  type : String
  class_pattern : List Char
deriving DecidableEq

/-- The weapon-class keyword table of `detect_category_filter`, in source
(insertion) order. -/
def weapon_classes : List (List Char × CategoryFilter) :=
  [(S "shotgun", ⟨"weapon", S "%shotgun%"⟩),
   (S "rifle", ⟨"weapon", S "%rifle%"⟩),
   (S "pistol", ⟨"weapon", S "%pistol%"⟩),
   (S "heavy gun", ⟨"weapon", S "%heavy gun%"⟩),
   (S "melee", ⟨"weapon", S "%melee%"⟩)]

/-- `HybridFalloutRAG.detect_category_filter`: first keyword of the table
found in the lowercased question wins; otherwise no filter. -/
def detect_category_filter (question : List Char) : Option CategoryFilter :=
  let question_lower := lowerL question
  (weapon_classes.find? (fun kv => containsSub kv.1 question_lower)).map (fun kv => kv.2)

/-- Regex word-boundary test for a position whose next character is known to
be a word character: the previous character (`none` at the string start)
must not be a word character. -/
def boundaryBefore (prev : Option Char) : Bool :=
  match prev with
  | none => true
  | some p => !(isWordChar p)

/-- Regex word-boundary test for a position right after a word character:
the remaining input must be empty or start with a non-word character. -/
def boundaryAfter (rest : List Char) : Bool :=
  match rest with
  | [] => true
  | c :: _ => !(isWordChar c)

/-- Match the atom `[A-Z][a-z]+` at the head of the input, returning the
matched text and the rest.  Greedy on the lowercase run; shrinking the run
can never help the surrounding patterns (a boundary or `\s` never holds
between two lowercase letters), so no backtracking is needed. -/
def matchCapWord (l : List Char) : Option (List Char × List Char) :=
  match l with
  | [] => none
  | c :: rest =>
    if isUpp c then
      let lows := rest.takeWhile isLow
      if lows.isEmpty then none
      else some (c :: lows, rest.drop lows.length)
    else none

/-- Match `\s+` at the head of the input (greedy). -/
def matchSpaces (l : List Char) : Option (List Char × List Char) :=
  let sp := l.takeWhile isSpaceCh
  if sp.isEmpty then none else some (sp, l.drop sp.length)

/-- Match the literal alternation `(?:and|the|of)`.  The alternatives have
distinct first letters, so the choice is deterministic. -/
def matchConnector (l : List Char) : Option (List Char × List Char) :=
  if isPref (S "and") l then some (S "and", l.drop 3)
  else if isPref (S "the") l then some (S "the", l.drop 3)
  else if isPref (S "of") l then some (S "of", l.drop 2)
  else none

/-- One iteration of the long pattern's group `\s+(?:and|the|of)\s+[A-Z][a-z]+`:
all four pieces in sequence, or nothing. -/
def iterOnce (l : List Char) : Option (List Char × List Char) :=
  match matchSpaces l with
  | none => none
  | some (sp1, r1) =>
    match matchConnector r1 with
    | none => none
    | some (conn, r2) =>
      match matchSpaces r2 with
      | none => none
      | some (sp2, r3) =>
        match matchCapWord r3 with
        | none => none
        | some (w, r4) => some (sp1 ++ conn ++ sp2 ++ w, r4)

/-- Greedily collect iterations of the long pattern's `(...)+` group; each
element stores the iteration's text and the rest of the input after it.
Each iteration consumes at least one character, so the input length bounds
the iteration count and serves as fuel. -/
def collectIts : Nat → List Char → List (List Char × List Char)
  | 0, _ => []
  | fuel + 1, l =>
    match iterOnce l with
    | none => []
    | some (t, rest) => (t, rest) :: collectIts fuel rest

/-- Backtracking over the greedy iteration list, latest iteration first:
drop iterations from the end until the trailing `\b` holds, as the regex
engine does.  (After dropping an iteration the position sits before that
iteration's whitespace, where the boundary holds, so at most one drop ever
happens; the general loop is still spelled out.)  Returns the kept
iterations' concatenated text and the rest of the input. -/
def pickIts : List (List Char × List Char) → Option (List Char × List Char)
  | [] => none
  | (t, r) :: earlier =>
    if boundaryAfter r then
      some (((((t, r) :: earlier).reverse).map (fun x => x.1)).foldl (· ++ ·) [], r)
    else pickIts earlier

/-- Match the whole long pattern `[A-Z][a-z]+(?:\s+(?:and|the|of)\s+[A-Z][a-z]+)+\b`
at the head of the input (the leading `\b` is the scanner's job). -/
def matchLongAt (l : List Char) : Option (List Char × List Char) :=
  match matchCapWord l with
  | none => none
  | some (w, r1) =>
    match pickIts (collectIts r1.length r1).reverse with
    | none => none
    | some (its, rest) => some (w ++ its, rest)

/-- `re.findall` scan for the long pattern: try each position left to right
(subject to the leading `\b`), and continue after the end of each match. -/
def scanLong : Nat → Option Char → List Char → List (List Char)
  | 0, _, _ => []
  | _, _, [] => []
  | fuel + 1, prev, c :: t =>
    if boundaryBefore prev then
      match matchLongAt (c :: t) with
      | some (txt, rest) => txt :: scanLong fuel txt.getLast? rest
      | none => scanLong fuel (some c) t
    else scanLong fuel (some c) t

/-- Match the short pattern `[A-Z][a-z]+\s+[A-Z][a-z]+\b` at the head of
the input.  No recovery is possible when the trailing `\b` fails (every
backtracking split lands between word characters or puts a letter where
`\s+` is required), so the match is deterministic. -/
def matchShortAt (l : List Char) : Option (List Char × List Char) :=
  match matchCapWord l with
  | none => none
  | some (w1, r1) =>
    match matchSpaces r1 with
    | none => none
    | some (sp, r2) =>
      match matchCapWord r2 with
      | none => none
      | some (w2, r3) =>
        if boundaryAfter r3 then some (w1 ++ sp ++ w2, r3) else none

/-- `re.findall` scan for the short pattern. -/
def scanShort : Nat → Option Char → List Char → List (List Char)
  | 0, _, _ => []
  | _, _, [] => []
  | fuel + 1, prev, c :: t =>
    if boundaryBefore prev then
      match matchShortAt (c :: t) with
      | some (txt, rest) => txt :: scanShort fuel txt.getLast? rest
      | none => scanShort fuel (some c) t
    else scanShort fuel (some c) t

/-- `re.findall` for the quoted pattern: a quote, one or more non-quote
characters (greedy, deterministic), a quote; the capture is the inner
text.  On failure the scan advances one character. -/
def scanQuoted : Nat → List Char → List (List Char)
  | 0, _ => []
  | _, [] => []
  | fuel + 1, c :: t =>
    if isQuote c then
      let body := t.takeWhile (fun d => !(isQuote d))
      match t.drop body.length with
      | [] => scanQuoted fuel t
      | _ :: rest2 =>
        if body.isEmpty then scanQuoted fuel t
        else body :: scanQuoted fuel rest2
    else scanQuoted fuel t

/-- Python `str.replace(old, '')` with a nonempty `old`: remove every
left-to-right non-overlapping occurrence. -/
def replaceAll : Nat → List Char → List Char → List Char
  | 0, _, l => l
  | _, _, [] => []
  | fuel + 1, old, c :: t =>
    if isPref old (c :: t) then replaceAll fuel old ((c :: t).drop old.length)
    else c :: replaceAll fuel old t

/-- The stoplist of `extract_named_items`. -/
def stop_phrases : List (List Char) :=
  [S "What", S "The", S "How", S "Why", S "When", S "Where", S "Which", S "Who",
   S "Best", S "Good", S "Better", S "Weapons", S "Perks", S "Armor", S "About",
   S "Other", S "Most", S "That", S "This", S "These", S "Those", S "Such"]

/-- `HybridFalloutRAG.extract_named_items`: the three regex passes (long
capitalized phrases, then two-word capitalized phrases on the question with
long matches removed, then quoted substrings on the original question),
followed by the stoplist and minimum-length filter.  The source wraps the
list in a single-key dict; the list is returned directly here. -/
def extract_named_items (question : List Char) : List (List Char) :=
  let long_phrases := scanLong (question.length + 1) none question
  let question_without_long :=
    long_phrases.foldl (fun acc p => replaceAll (acc.length + 1) p acc) question
  let short_phrases := scanShort (question_without_long.length + 1) none question_without_long
  let quoted_names := scanQuoted (question.length + 1) question
  let item_names := long_phrases ++ short_phrases ++ quoted_names
  item_names.filter (fun n => !(stop_phrases.contains n) && n.length > 2)

/-- A row of `v_weapons_with_perks` joined with its aggregated mechanics
text, as produced by the weapon queries of the engine (the `GROUP BY` keeps
one row per weapon id; non-key display columns beyond the name and class
are folded into `mechanics`). -/
structure WeaponRow where
  id : Nat
  weapon_name : List Char
  weapon_class : List Char
  mechanics : List Char
deriving DecidableEq

/-- A row of `v_armor_complete`. -/
structure ArmorRow where
  id : Nat
  name : List Char
deriving DecidableEq

/-- A row of `v_perks_all_ranks`: one row per (perk, rank). -/
structure PerkRow where
  perk_id : Nat
  perk_name : List Char
  rank : Nat
deriving DecidableEq

/-- A row of `v_legendary_perks_all_ranks`: one row per (perk, rank). -/
structure LegendaryPerkRow where
  legendary_perk_id : Nat
  perk_name : List Char
  rank : Nat
deriving DecidableEq

/-- A row of `v_mutations_complete`. -/
structure MutationRow where
  mutation_id : Nat
  mutation_name : List Char
deriving DecidableEq

/-- A row of `v_consumables_complete`. -/
structure ConsumableRow where
  consumable_id : Nat
  consumable_name : List Char
deriving DecidableEq

/-- The relational store as seen by the engine: the six views it reads.
The engine never writes. -/
structure Database where
  weapons_view : List WeaponRow
  armor_view : List ArmorRow
  perks_view : List PerkRow
  legendary_view : List LegendaryPerkRow
  mutations_view : List MutationRow
  consumables_view : List ConsumableRow
deriving DecidableEq

/-- One vector-index hit's metadata: the `type` tag and the item id (the
index stores ids as strings of integers; integer-keyed here, which the
string rendering maps to injectively). -/
structure Meta where
  type : String
  id : Nat
deriving DecidableEq

/-- The by-variant result dictionary built by the engine; every variant
key is always present, mapping to a (possibly empty) list. -/
structure Enriched where
  weapons : List WeaponRow
  armor : List ArmorRow
  perks : List PerkRow
  legendary_perks : List LegendaryPerkRow
  mutations : List MutationRow
  consumables : List ConsumableRow
deriving DecidableEq

/-- The all-empty result dictionary the engine initializes with. -/
def emptyEnriched : Enriched :=
  { weapons := [], armor := [], perks := [], legendary_perks := [],
    mutations := [], consumables := [] }

/-- `SELECT * FROM view WHERE key IN (ids)`: the view's rows whose key is
listed, in view order, each at most once. -/
def queryByIds {α : Type} (table : List α) (key : α → Nat) (ids : List Nat) : List α :=
  table.filter (fun r => ids.contains (key r))

/-- The id group a variant tag receives in `enrich_with_sql`'s
`items_by_type` dictionary: the ids of the hits with that tag, in hit
order. -/
def idsOfType (metas : List Meta) (t : String) : List Nat :=
  (metas.filter (fun m => m.type == t)).map (fun m => m.id)

/-- MySQL `column LIKE '%kw%'` with the default case-insensitive collation,
for the engine's patterns (a single keyword between two wildcards, no
interior wildcard): substring test after stripping the percent signs and
lowering both sides. -/
def likeMatch (pat : List Char) (s : List Char) : Bool :=
  containsSub (lowerL (pat.filter (fun c => !(c == '%')))) (lowerL s)

/-- `HybridFalloutRAG.fetch_named_items_from_sql`: per view, the rows whose
name column matches any candidate under `LIKE '%name%'`; an all-empty
dictionary when no names were extracted. -/
def fetch_named_items_from_sql (db : Database) (item_names : List (List Char)) : Enriched :=
  if item_names.isEmpty then emptyEnriched
  else
    { weapons := db.weapons_view.filter
        (fun w => item_names.any (fun nm => containsSub nm w.weapon_name)),
      armor := db.armor_view.filter
        (fun a => item_names.any (fun nm => containsSub nm a.name)),
      perks := db.perks_view.filter
        (fun p => item_names.any (fun nm => containsSub nm p.perk_name)),
      legendary_perks := db.legendary_view.filter
        (fun p => item_names.any (fun nm => containsSub nm p.perk_name)),
      mutations := db.mutations_view.filter
        (fun m => item_names.any (fun nm => containsSub nm m.mutation_name)),
      consumables := db.consumables_view.filter
        (fun c => item_names.any (fun nm => containsSub nm c.consumable_name)) }

/-- The named-item merge step of `enrich_with_sql` for one variant: the
set of identity keys already present is computed once, and the named rows
whose key is absent from it are appended in order (the source's loop with
its unrefreshed `existing_ids` set is exactly this filter-and-append). -/
def mergeNamed {α : Type} (base : List α) (key : α → Nat) (named : List α) : List α :=
  let existing_ids := base.map key
  base ++ named.filter (fun n => !(existing_ids.contains (key n)))

/-- `HybridFalloutRAG.enrich_with_sql`: group the hit ids by variant tag,
fetch each non-empty group from its view with one `IN` query (an empty
group fetches nothing, matching the source's key-presence check), then
merge the optional named items per variant by identity key. -/
def enrich_with_sql (db : Database) (vector_metas : List Meta)
    (named_items : Option Enriched) : Enriched :=
  let base : Enriched :=
    { weapons := queryByIds db.weapons_view (fun w => w.id) (idsOfType vector_metas "weapon"),
      armor := queryByIds db.armor_view (fun a => a.id) (idsOfType vector_metas "armor"),
      perks := queryByIds db.perks_view (fun p => p.perk_id) (idsOfType vector_metas "perk"),
      legendary_perks := queryByIds db.legendary_view (fun p => p.legendary_perk_id)
        (idsOfType vector_metas "legendary_perk"),
      mutations := queryByIds db.mutations_view (fun m => m.mutation_id)
        (idsOfType vector_metas "mutation"),
      consumables := queryByIds db.consumables_view (fun c => c.consumable_id)
        (idsOfType vector_metas "consumable") }
  match named_items with
  | none => base
  | some ni =>
    { weapons := mergeNamed base.weapons (fun w => w.id) ni.weapons,
      armor := mergeNamed base.armor (fun a => a.id) ni.armor,
      perks := mergeNamed base.perks (fun p => p.perk_id) ni.perks,
      legendary_perks := mergeNamed base.legendary_perks (fun p => p.legendary_perk_id)
        ni.legendary_perks,
      mutations := mergeNamed base.mutations (fun m => m.mutation_id) ni.mutations,
      consumables := mergeNamed base.consumables (fun c => c.consumable_id) ni.consumables }

/-- Python's `dict` built by `id_to_weapon = {str(w['id']): w for w in all_weapons}`
followed by a key lookup: the last row with the given id wins. -/
def idToWeapon (all_weapons : List WeaponRow) (wid : Nat) : Option WeaponRow :=
  all_weapons.reverse.find? (fun w => w.id == wid)

/-- The ranking core of `HybridFalloutRAG.hybrid_category_search`: keep the
vector-ranked ids that belong to the pre-filtered set, truncated to
`n_results`; resolve them through the id dictionary; then append every
pre-filtered weapon absent from the ranked ids, in original order. -/
def rankWeapons (all_weapons : List WeaponRow) (ranked_meta_ids : List Nat)
    (n_results : Nat) : List WeaponRow :=
  let weapon_ids := all_weapons.map (fun w => w.id)
  let ranked_ids := (ranked_meta_ids.filter (fun i => weapon_ids.contains i)).take n_results
  let ranked := ranked_ids.filterMap (fun wid => idToWeapon all_weapons wid)
  let remaining := all_weapons.filter (fun w => !(ranked_ids.contains w.id))
  ranked ++ remaining

/-- `HybridFalloutRAG.hybrid_category_search`: for a weapon filter, the SQL
pre-filter fetches every row whose class matches the LIKE pattern, and the
vector ranking reorders them; other filter types fall through to the
all-empty dictionary, as in the source. -/
def hybrid_category_search (db : Database) (category_filter : CategoryFilter)
    (ranked_meta_ids : List Nat) (n_results : Nat) : Enriched :=
  if category_filter.type == "weapon" then
    let all_weapons := db.weapons_view.filter
      (fun w => likeMatch category_filter.class_pattern w.weapon_class)
    { emptyEnriched with weapons := rankWeapons all_weapons ranked_meta_ids n_results }
  else emptyEnriched

/-- The per-variant record cap of `format_vector_results`:
`limit = len(items) if (is_category_search or len(items) <= 15) else 10`. -/
def variantLimit (is_category_search : Bool) (n : Nat) : Nat :=
  if is_category_search = true ∨ n ≤ 15 then n else 10

/-- The records of one variant that `format_vector_results` serializes into
the context block: `items[:limit]`. -/
def takeLimit {α : Type} (is_category_search : Bool) (items : List α) : List α :=
  items.take (variantLimit is_category_search items.length)

/-- One variant's section of the context block: nothing for an empty list
(the source skips those variants entirely), otherwise the header followed
by one serialized entry per included record.  The Python `str(dict)`
rendering of a row is abbreviated to the given serializer; the cap
property concerns the record count, not the rendering. -/
def sectionFor {α : Type} (header : List Char) (toS : α → List Char)
    (is_category_search : Bool) (items : List α) : List Char :=
  if items.isEmpty then []
  else header ++ ((takeLimit is_category_search items).map (fun i => toS i ++ S "\n")).foldl (· ++ ·) []

/-- Abbreviated row serializers standing for Python `str(item)`. -/
def weaponStr (w : WeaponRow) : List Char := w.weapon_name ++ S " | " ++ w.mechanics

/-- Abbreviated `str(item)` for armor rows. -/
def armorStr (a : ArmorRow) : List Char := a.name

/-- Abbreviated `str(item)` for perk rows. -/
def perkStr (p : PerkRow) : List Char := p.perk_name

/-- Abbreviated `str(item)` for legendary perk rows. -/
def legendaryStr (p : LegendaryPerkRow) : List Char := p.perk_name

/-- Abbreviated `str(item)` for mutation rows. -/
def mutationStr (m : MutationRow) : List Char := m.mutation_name

/-- Abbreviated `str(item)` for consumable rows. -/
def consumableStr (c : ConsumableRow) : List Char := c.consumable_name

/-- The context block of `format_vector_results`: the six variant sections
in dictionary order. -/
def buildContext (is_category_search : Bool) (e : Enriched) : List Char :=
  sectionFor (S "\n=== WEAPONS ===") weaponStr is_category_search e.weapons
  ++ sectionFor (S "\n=== ARMOR ===") armorStr is_category_search e.armor
  ++ sectionFor (S "\n=== PERKS ===") perkStr is_category_search e.perks
  ++ sectionFor (S "\n=== LEGENDARY_PERKS ===") legendaryStr is_category_search e.legendary_perks
  ++ sectionFor (S "\n=== MUTATIONS ===") mutationStr is_category_search e.mutations
  ++ sectionFor (S "\n=== CONSUMABLES ===") consumableStr is_category_search e.consumables

/-- The 200-character answer summary stored in both engines' conversation
histories. -/
def truncSummary (answer : List Char) : List Char :=
  if answer.length > 200 then answer.take 200 ++ S "..." else answer

/-- One turn of `HybridFalloutRAG.conversation_history`. -/
structure HybridTurn where
  question : List Char
  method : String
  summary : List Char
deriving DecidableEq

/-- The conversation preamble of `format_vector_results`: the last three
turns, rendered Q/A. -/
def historyPreamble (history : List HybridTurn) : List Char :=
  (history.drop (history.length - 3)).foldl
    (fun acc t => acc ++ S "Q: " ++ t.question ++ S "\nA: " ++ t.summary ++ S "\n\n")
    (S "\n\nPrevious conversation:\n")

/-- The grounding prompt of `format_vector_results` (instruction text
abbreviated; the question, history preamble and context block flow into it
as in the source). -/
def groundingPrompt (question : List Char) (history_context : List Char)
    (context : List Char) : List Char :=
  S "You are a Fallout 76 build advisor. [grounding instructions]\n\nUser question: "
  ++ question ++ history_context
  ++ S "\nRelevant items from our database:\n" ++ context

/-- `HybridFalloutRAG.format_vector_results`: build the context block and
prompt, obtain the model's answer (the generative model is the `claude`
oracle), and append a vector-method turn with a truncated summary to the
conversation history.  Returns the answer and the updated history. -/
def format_vector_results (question : List Char) (enriched_data : Enriched)
    (is_category_search : Bool) (history : List HybridTurn)
    (claude : List Char → List Char) : List Char × List HybridTurn :=
  let context := buildContext is_category_search enriched_data
  let history_context := if history.isEmpty then [] else historyPreamble history
  let answer := claude (groundingPrompt question history_context context)
  (answer, history ++ [{ question := question, method := "vector", summary := truncSummary answer }])

/-- The parsed intent classification of the inner engine
(`FalloutRAG.classify_intent`), as returned by its model call. -/
structure InnerClassification where
  classification : String
  reason : List Char
  clarifying_questions : List (List Char)
deriving DecidableEq

/-- A relational result row of the inner engine, an association of column
names to values. -/
structure SqlRow where
  fields : List (String × List Char)
deriving DecidableEq

/-- One turn of the inner engine's own `conversation_history`. -/
structure SqlTurn where
  question : List Char
  sql : List Char
  summary : List Char
deriving DecidableEq

/-- The outcomes of the inner engine's external calls for one question:
the parsed classification, the generated relational query (after the
source's markdown-fence stripping of the raw model output), the execution
outcome (an exception message or a row list), and the answer-formatting
model call. -/
structure SqlOracles where
  classification : InnerClassification
  gen_sql : List Char
  exec_result : Except (List Char) (List SqlRow)
  format_answer : List SqlRow → List Char

/-- The result dictionary of `FalloutRAG.ask`, one constructor per `type`
tag it returns. -/
inductive InnerResult where
  | clarification (classification : String) (reason : List Char)
      (questions : List (List Char))
  | error (content : List Char)
  | answer (content : List Char)
deriving DecidableEq

/-- The classifications that trigger a clarification response. -/
def vagueClassifications : List String :=
  ["VAGUE_CRITERIA", "VAGUE_BUILD", "AMBIGUOUS"]

/-- The `content` of the inner engine's query-execution error dictionary. -/
def execErrorContent (e : List Char) (sql_query : List Char) : List Char :=
  S "Error executing query: " ++ e ++ S "\n\nSQL attempted:\n" ++ sql_query

/-- The `content` of the inner engine's zero-row answer (the source's text
verbatim, its one apostrophe elided). -/
def noDataContent (sql_query : List Char) : List Char :=
  S "No data found in the database for this query.\n\nSQL executed:\n"
  ++ sql_query
  ++ S "\n\nThe query returned 0 rows. The data you are looking for may not exist in the database, or the query may need adjustment."

/-- `FalloutRAG.ask`: classify unless skipped (a vague classification
returns clarifying questions); execute the generated query (an exception
becomes an error dictionary carrying the query); a zero-row result becomes
a normal answer stating no data was found; otherwise format the rows and
append the turn to the inner history.  Returns the result dictionary and
the updated inner history. -/
def sql_ask (question : List Char) (skip_classification : Bool)
    (history : List SqlTurn) (o : SqlOracles) : InnerResult × List SqlTurn :=
  if !skip_classification && vagueClassifications.contains o.classification.classification then
    (InnerResult.clarification o.classification.classification o.classification.reason
       o.classification.clarifying_questions, history)
  else
    let sql_query := o.gen_sql
    match o.exec_result with
    | Except.error e => (InnerResult.error (execErrorContent e sql_query), history)
    | Except.ok [] => (InnerResult.answer (noDataContent sql_query), history)
    | Except.ok (r :: rs) =>
      let final_answer := o.format_answer (r :: rs)
      (InnerResult.answer final_answer,
       history ++ [{ question := question, sql := sql_query, summary := truncSummary final_answer }])

/-- The value of the first component of `HybridFalloutRAG.ask`'s returned
pair: a formatted string on the conceptual paths, the inner engine's
result dictionary on the SQL path (the source's `tuple[str, str]`
annotation notwithstanding). -/
inductive Answer where
  | text (s : List Char)
  | record (r : InnerResult)
deriving DecidableEq

/-- The session state of the hybrid system: the hybrid engine's own
conversation history and the inner SQL engine's separate one. -/
structure SysState where
  hybrid_history : List HybridTurn
  sql_history : List SqlTurn
deriving DecidableEq

/-- The outcomes of the hybrid engine's external calls for one question:
the inner engine's oracles, the metadata list returned by the plain
30-neighbor vector search, the id ranking returned by the 1000-neighbor
weapon-filtered vector query of the category path, the generative model,
and the relational store. -/
structure HybridOracles where
  sql : SqlOracles
  vector_metas : List Meta
  category_meta_ids : List Nat
  claude : List Char → List Char
  db : Database

/-- `HybridFalloutRAG.ask`: route on the classified intent.  EXACT
delegates to the inner engine (method "SQL"); a conceptual question with a
detected category filter runs the hybrid category search (method
"HYBRID"); otherwise named items are extracted and fetched when present,
the vector hits are enriched and merged, and the formatter answers
(method "VECTOR+SQL").  Returns ((answer, method), updated state). -/
def hybrid_ask (question : List Char) (st : SysState) (o : HybridOracles) :
    (Answer × String) × SysState :=
  if classify_intent question == "EXACT" then
    let r := sql_ask question false st.sql_history o.sql
    ((Answer.record r.1, "SQL"), { st with sql_history := r.2 })
  else
    match detect_category_filter question with
    | some category_filter =>
      let enriched_data := hybrid_category_search o.db category_filter o.category_meta_ids 30
      let r := format_vector_results question enriched_data true st.hybrid_history o.claude
      ((Answer.text r.1, "HYBRID"), { st with hybrid_history := r.2 })
    | none =>
      let potential_names := extract_named_items question
      let named_items := if potential_names.isEmpty then none
                         else some (fetch_named_items_from_sql o.db potential_names)
      let enriched_data := enrich_with_sql o.db o.vector_metas named_items
      let r := format_vector_results question enriched_data false st.hybrid_history o.claude
      ((Answer.text r.1, "VECTOR+SQL"), { st with hybrid_history := r.2 })

/-- Whitespace-delimited tokens of a question (fuel-bounded recursion; the
input length bounds the token count). -/
def wordsOf : Nat → List Char → List (List Char)
  | 0, _ => []
  | fuel + 1, l =>
    let l1 := l.dropWhile isSpaceCh
    if l1.isEmpty then []
    else
      let w := l1.takeWhile (fun c => !(isSpaceCh c))
      w :: wordsOf fuel (l1.drop w.length)

/-- Spec-side definition, following the spec's words for rule 3 of the
intent classifier: the question "has a capitalized token run", read as at
least one whitespace-delimited token starting with an uppercase letter.
Stated only to compare against the source's any-uppercase-character
check. -/
def hasCapitalizedTokenRun (question : List Char) : Bool :=
  (wordsOf (question.length + 1) question).any
    (fun w => match w with | c :: _ => isUpp c | [] => false)

/-- The `∀`-variant / `Nodup` reading of the enrichment dedup guarantee:
no identity key occurs twice within any variant's list. -/
def allKeysNodup (e : Enriched) : Prop :=
  (e.weapons.map (fun w => w.id)).Nodup
  ∧ (e.armor.map (fun a => a.id)).Nodup
  ∧ (e.perks.map (fun p => p.perk_id)).Nodup
  ∧ (e.legendary_perks.map (fun p => p.legendary_perk_id)).Nodup
  ∧ (e.mutations.map (fun m => m.mutation_id)).Nodup
  ∧ (e.consumables.map (fun c => c.consumable_id)).Nodup

instance (e : Enriched) : Decidable (allKeysNodup e) := by
  unfold allKeysNodup; infer_instance

/-- Scenario B's question. -/
def qB : List Char := S "Best bloodied heavy gunner build"

/-- Scenario D's question (it quotes "The Fixer"). -/
def qFixer : List Char := S "Tell me about \"The Fixer\""

/-- An empty relational store, for concrete evaluations. -/
def emptyDb : Database := ⟨[], [], [], [], [], []⟩

/-- A concrete oracle bundle for closed evaluations of `hybrid_ask`: a
SPECIFIC inner classification, a fixed generated query whose execution
returns zero rows, and constant model outputs. -/
def oracles0 : HybridOracles :=
  { sql := { classification := ⟨"SPECIFIC", [], []⟩,
             gen_sql := S "SELECT 1",
             exec_result := Except.ok [],
             format_answer := fun _ => S "formatted" },
    vector_metas := [],
    category_meta_ids := [],
    claude := fun _ => S "model answer",
    db := emptyDb }

/-- The empty session state. -/
def st0 : SysState := ⟨[], []⟩

/-- A store whose all-ranks perk view holds two rank rows of one perk, as
the real `v_perks_all_ranks` does for every multi-rank perk. -/
def dbPerkDup : Database :=
  { weapons_view := [], armor_view := [],
    perks_view := [⟨1, S "Adrenaline", 1⟩, ⟨1, S "Adrenaline", 2⟩],
    legendary_view := [], mutations_view := [], consumables_view := [] }

theorem isPref_self_append (n l : List Char) : isPref n (n ++ l) = true := by
  induction n with
  | nil => rfl
  | cons a as ih => simp [isPref, ih]

theorem isPref_extend (n l m : List Char) (h : isPref n l = true) :
    isPref n (l ++ m) = true := by
  induction n generalizing l with
  | nil => rfl
  | cons a as ih =>
    cases l with
    | nil => simp [isPref] at h
    | cons b bs =>
      simp only [isPref, Bool.and_eq_true] at h ⊢
      exact ⟨h.1, ih bs h.2⟩

theorem containsSub_of_isPref (n l : List Char) (h : isPref n l = true) :
    containsSub n l = true := by
  cases l with
  | nil => simpa [containsSub] using h
  | cons c t => simp [containsSub, h]

theorem containsSub_mid (n pre post : List Char) :
    containsSub n (pre ++ n ++ post) = true := by
  induction pre with
  | nil =>
    simp only [List.nil_append]
    exact containsSub_of_isPref n (n ++ post) (isPref_self_append n post)
  | cons p ps ih =>
    show (isPref n (p :: (ps ++ n ++ post)) || containsSub n (ps ++ n ++ post)) = true
    rw [ih, Bool.or_true]

/-- C2: for every question whose lowercased text contains both at least one
conceptual-signal keyword and at least one exact-signal keyword,
`classify_intent` returns CONCEPTUAL, because the conceptual keywords are
checked first. -/
theorem c2_conceptual_priority (question : List Char)
    (hc : ∃ k ∈ conceptual_keywords, containsSub k (lowerL question) = true)
    (he : ∃ k ∈ exact_keywords, containsSub k (lowerL question) = true) :
    classify_intent question = "CONCEPTUAL" := by
  have hany : conceptual_keywords.any (fun k => containsSub k (lowerL question)) = true := by
    obtain ⟨k, hk, hck⟩ := hc
    exact List.any_eq_true.mpr ⟨k, hk, hck⟩
  simp [classify_intent, hany]

/-- Witness for C2 at the question "list all best weapons", which contains
the conceptual keyword "best" and the exact keyword "list all". -/
theorem c2_witness :
    ((∃ k ∈ conceptual_keywords, containsSub k (lowerL (S "list all best weapons")) = true)
     ∧ (∃ k ∈ exact_keywords, containsSub k (lowerL (S "list all best weapons")) = true))
    ∧ classify_intent (S "list all best weapons") = "CONCEPTUAL" :=
  ⟨⟨by decide, by decide⟩, c2_conceptual_priority _ (by decide) (by decide)⟩

/-- C1 counterexample: on Scenario B's question "Best bloodied heavy gunner
build", `detect_category_filter` does NOT return "no category filter" (the
keyword "heavy gun" is a substring of "heavy gunner"), and `ask` does not
return method "VECTOR+SQL". -/
theorem c1_counterexample :
    detect_category_filter qB ≠ none
    ∧ (hybrid_ask qB st0 oracles0).1.2 ≠ "VECTOR+SQL" := by
  constructor
  · decide
  · intro h
    exact absurd h (by decide)

/-- C1 as amended: for "Best bloodied heavy gunner build", `classify_intent`
returns CONCEPTUAL, `detect_category_filter` returns the weapon category
filter with LIKE pattern "%heavy gun%" (because "heavy gunner" contains
"heavy gun"), and `ask` therefore takes the category path and returns
method "HYBRID", for every session state and oracle outcome. -/
theorem c1_scenario_b (st : SysState) (o : HybridOracles) :
    classify_intent qB = "CONCEPTUAL"
    ∧ detect_category_filter qB = some ⟨"weapon", S "%heavy gun%"⟩
    ∧ (hybrid_ask qB st o).1.2 = "HYBRID" :=
  ⟨by decide, by decide, rfl⟩

set_option maxRecDepth 8192 in
/-- C5 counterexample: on the exact-path question "What is the damage of
the Gauss Shotgun?" (the exact keyword "damage of" fires), `ask` returns
method "SQL" — which is none of the claimed values EXACT, VECTOR, HYBRID —
and its answer component is the inner engine's result dictionary, not a
plain string. -/
theorem c5_counterexample :
    (hybrid_ask (S "What is the damage of the Gauss Shotgun?") st0 oracles0).1.2 = "SQL"
    ∧ ((("SQL" : String) ≠ "EXACT") ∧ (("SQL" : String) ≠ "VECTOR") ∧ (("SQL" : String) ≠ "HYBRID"))
    ∧ (hybrid_ask (S "What is the damage of the Gauss Shotgun?") st0 oracles0).1.1
        = Answer.record (InnerResult.answer (noDataContent (S "SELECT 1"))) := by
  refine ⟨by decide, ⟨by decide, by decide, by decide⟩, by decide⟩

/-- C5 as amended: for every question, state and oracle outcome, `ask`
returns a pair whose method component is one of the three values "SQL",
"VECTOR+SQL", "HYBRID"; the answer component is the inner engine's result
dictionary when the intent is EXACT and a formatted string otherwise. -/
theorem c5_method_values (question : List Char) (st : SysState) (o : HybridOracles) :
    ((hybrid_ask question st o).1.2 = "SQL"
     ∨ (hybrid_ask question st o).1.2 = "VECTOR+SQL"
     ∨ (hybrid_ask question st o).1.2 = "HYBRID")
    ∧ (classify_intent question = "EXACT" →
        (hybrid_ask question st o).1.1
          = Answer.record (sql_ask question false st.sql_history o.sql).1)
    ∧ (classify_intent question ≠ "EXACT" →
        ∃ s, (hybrid_ask question st o).1.1 = Answer.text s) := by
  by_cases h : classify_intent question = "EXACT"
  · have hb : (classify_intent question == "EXACT") = true := beq_iff_eq.mpr h
    refine ⟨Or.inl ?_, fun _ => ?_, fun hne => absurd h hne⟩
    · simp [hybrid_ask, hb]
    · simp [hybrid_ask, hb]
  · have hb : (classify_intent question == "EXACT") = false := by
      simpa using h
    cases hd : detect_category_filter question with
    | some cf =>
      refine ⟨Or.inr (Or.inr ?_), fun hEx => absurd hEx h, fun _ => ?_⟩
      · simp [hybrid_ask, hb, hd]
      · simp only [hybrid_ask, hb, hd, Bool.false_eq_true, if_false]
        exact ⟨_, rfl⟩
    | none =>
      refine ⟨Or.inr (Or.inl ?_), fun hEx => absurd hEx h, fun _ => ?_⟩
      · simp [hybrid_ask, hb, hd]
      · simp only [hybrid_ask, hb, hd, Bool.false_eq_true, if_false]
        exact ⟨_, rfl⟩

/-- Witness for C5 at "How many rifles are there" (classified EXACT):
the implication hypotheses are discharged at this concrete input. -/
theorem c5_witness :
    ((hybrid_ask (S "How many rifles are there") st0 oracles0).1.2 = "SQL"
     ∨ (hybrid_ask (S "How many rifles are there") st0 oracles0).1.2 = "VECTOR+SQL"
     ∨ (hybrid_ask (S "How many rifles are there") st0 oracles0).1.2 = "HYBRID")
    ∧ (hybrid_ask (S "How many rifles are there") st0 oracles0).1.1
        = Answer.record (sql_ask (S "How many rifles are there") false st0.sql_history oracles0.sql).1 :=
  ⟨(c5_method_values _ st0 oracles0).1,
   (c5_method_values _ st0 oracles0).2.1 (by decide)⟩

/-- C8 counterexample: "what is tHe point" contains "what is", no
conceptual-signal and no exact-signal keyword, and has no capitalized
token (no token starts with an uppercase letter), yet `classify_intent`
returns EXACT — the source tests for any uppercase character anywhere, not
for a capitalized token run. -/
theorem c8_counterexample :
    containsSub (S "what is") (lowerL (S "what is tHe point")) = true
    ∧ (∀ k ∈ conceptual_keywords, containsSub k (lowerL (S "what is tHe point")) = false)
    ∧ (∀ k ∈ exact_keywords, containsSub k (lowerL (S "what is tHe point")) = false)
    ∧ hasCapitalizedTokenRun (S "what is tHe point") = false
    ∧ classify_intent (S "what is tHe point") = "EXACT" := by
  decide

/-- C8 as amended: for every question containing "what is" or "what does"
(case-insensitively) and no conceptual-signal or exact-signal keyword,
`classify_intent` returns EXACT exactly when the question contains at
least one uppercase character anywhere, and CONCEPTUAL otherwise. -/
theorem c8_what_is_uppercase (question : List Char)
    (hw : containsSub (S "what is") (lowerL question) = true
          ∨ containsSub (S "what does") (lowerL question) = true)
    (hc : ∀ k ∈ conceptual_keywords, containsSub k (lowerL question) = false)
    (he : ∀ k ∈ exact_keywords, containsSub k (lowerL question) = false) :
    classify_intent question = if question.any isUpp then "EXACT" else "CONCEPTUAL" := by
  have h1 : conceptual_keywords.any (fun k => containsSub k (lowerL question)) = false := by
    rw [List.any_eq_false]
    intro k hk
    simp [hc k hk]
  have h2 : exact_keywords.any (fun k => containsSub k (lowerL question)) = false := by
    rw [List.any_eq_false]
    intro k hk
    simp [he k hk]
  have h3 : (containsSub (S "what is") (lowerL question)
             || containsSub (S "what does") (lowerL question)) = true := by
    rcases hw with h | h <;> simp [h]
  simp [classify_intent, h1, h2, h3]

/-- Witness for C8 at "what is Overdrive": all hypotheses hold and the
uppercase letter O makes the classification EXACT. -/
theorem c8_witness :
    classify_intent (S "what is Overdrive")
      = if (S "what is Overdrive").any isUpp then "EXACT" else "CONCEPTUAL" :=
  c8_what_is_uppercase _ (Or.inl (by decide)) (by decide) (by decide)

theorem rankWeapons_superset (all_weapons : List WeaponRow) (mids : List Nat)
    (n : Nat) (w : WeaponRow) (hw : w ∈ all_weapons) :
    w.id ∈ (rankWeapons all_weapons mids n).map (fun x => x.id) := by
  simp only [rankWeapons, List.map_append, List.mem_append]
  by_cases hr : w.id ∈ (mids.filter
      (fun i => (all_weapons.map (fun x => x.id)).contains i)).take n
  · left
    have hfind : (idToWeapon all_weapons w.id).isSome := by
      rw [idToWeapon, List.find?_isSome]
      exact ⟨w, List.mem_reverse.mpr hw, by simp⟩
    obtain ⟨w', hw'⟩ := Option.isSome_iff_exists.mp hfind
    have hid : w'.id = w.id := by
      have h4 := List.find?_some (p := fun x : WeaponRow => x.id == w.id)
        (by rw [idToWeapon] at hw'; exact hw')
      simpa using h4
    have hmem2 : w' ∈ ((mids.filter
        (fun i => (all_weapons.map (fun x => x.id)).contains i)).take n).filterMap
          (fun wid => idToWeapon all_weapons wid) :=
      List.mem_filterMap.mpr ⟨w.id, hr, hw'⟩
    rw [← hid]
    exact List.mem_map_of_mem _ hmem2
  · right
    apply List.mem_map_of_mem
    rw [List.mem_filter]
    refine ⟨hw, ?_⟩
    simpa using hr

/-- C3: for every category-complete search with a weapon category filter,
every view row matching the filter contributes its id to the returned
enriched weapon list — the ranked-and-truncated intersection plus the
appended remainder never drop a category member. -/
theorem c3_category_superset (db : Database) (cf : CategoryFilter)
    (mids : List Nat) (n : Nat) (w : WeaponRow)
    (htype : cf.type = "weapon") (hw : w ∈ db.weapons_view)
    (hmatch : likeMatch cf.class_pattern w.weapon_class = true) :
    w.id ∈ (hybrid_category_search db cf mids n).weapons.map (fun x => x.id) := by
  have hb : (cf.type == "weapon") = true := beq_iff_eq.mpr htype
  simp only [hybrid_category_search, hb, if_true]
  exact rankWeapons_superset _ mids n w (List.mem_filter.mpr ⟨hw, hmatch⟩)

/-- Witness for C3: a two-weapon shotgun view where the vector ranking
only surfaces one of them still yields both ids. -/
theorem c3_witness :
    ((⟨"weapon", S "%shotgun%"⟩ : CategoryFilter).type = "weapon"
     ∧ (⟨2, S "Gauss Shotgun", S "Shotgun", []⟩ : WeaponRow)
         ∈ [⟨1, S "Combat Shotgun", S "Shotgun", []⟩,
            (⟨2, S "Gauss Shotgun", S "Shotgun", []⟩ : WeaponRow)]
     ∧ likeMatch (S "%shotgun%") (S "Shotgun") = true)
    ∧ (2 : Nat) ∈ (hybrid_category_search
        ⟨[⟨1, S "Combat Shotgun", S "Shotgun", []⟩,
          ⟨2, S "Gauss Shotgun", S "Shotgun", []⟩], [], [], [], [], []⟩
        ⟨"weapon", S "%shotgun%"⟩ [1] 30).weapons.map (fun x => x.id) :=
  ⟨⟨rfl, by decide, by decide⟩,
   c3_category_superset
     ⟨[⟨1, S "Combat Shotgun", S "Shotgun", []⟩,
       ⟨2, S "Gauss Shotgun", S "Shotgun", []⟩], [], [], [], [], []⟩
     ⟨"weapon", S "%shotgun%"⟩ [1] 30 ⟨2, S "Gauss Shotgun", S "Shotgun", []⟩
     rfl (by decide) (by decide)⟩

theorem filter_keys_nodup {α : Type} (key : α → Nat) (table : List α)
    (p : α → Bool) (h : (table.map key).Nodup) :
    ((table.filter p).map key).Nodup :=
  List.Nodup.sublist (List.Sublist.map key (List.filter_sublist table)) h

theorem mergeNamed_keys_nodup {α : Type} (key : α → Nat) (base named : List α)
    (hb : (base.map key).Nodup) (hn : (named.map key).Nodup) :
    ((mergeNamed base key named).map key).Nodup := by
  unfold mergeNamed
  rw [List.map_append, List.nodup_append]
  refine ⟨hb, ?_, ?_⟩
  · exact List.Nodup.sublist (List.Sublist.map key (List.filter_sublist named)) hn
  · intro x hx hx2
    obtain ⟨m, hm, hkey⟩ := List.mem_map.mp hx2
    rw [List.mem_filter] at hm
    have hnotin : ((base.map key).contains (key m)) = false := by
      have := hm.2
      simpa using this
    rw [hkey] at hnotin
    have hcont : (List.map key base).contains x = true := List.elem_eq_true_of_mem hx
    exact Bool.noConfusion (hcont.symm.trans hnotin)

/-- C4 counterexample: one vector hit on a perk with two ranks makes
`enrich_with_sql` return two records with the same (perks, perk_id)
identity key in the perks list — the all-ranks view yields one row per
rank, so the claimed dedup invariant fails. -/
theorem c4_counterexample :
    ¬ (((enrich_with_sql dbPerkDup [⟨"perk", 1⟩] none).perks.map
        (fun p => p.perk_id)).Nodup) := by
  decide

/-- C4 as amended: `enrich_with_sql` never returns two records with the
same identity key within a variant's list PROVIDED the underlying view
holds at most one row per identity key; the all-ranks perk views violate
that premise (one row per rank), which is the only source of duplicate
keys — the named-item merge itself never re-adds a key that is already
present.  Every variant key always maps to a (possibly empty) list. -/
theorem c4_enrich_merge_nodup (db : Database) (metas : List Meta)
    (names : List (List Char))
    (hw : (db.weapons_view.map (fun w => w.id)).Nodup)
    (ha : (db.armor_view.map (fun a => a.id)).Nodup)
    (hp : (db.perks_view.map (fun p => p.perk_id)).Nodup)
    (hl : (db.legendary_view.map (fun p => p.legendary_perk_id)).Nodup)
    (hm : (db.mutations_view.map (fun m => m.mutation_id)).Nodup)
    (hc : (db.consumables_view.map (fun c => c.consumable_id)).Nodup) :
    allKeysNodup (enrich_with_sql db metas (some (fetch_named_items_from_sql db names))) := by
  unfold enrich_with_sql allKeysNodup
  by_cases hn : names.isEmpty = true
  · refine ⟨?_, ?_, ?_, ?_, ?_, ?_⟩ <;>
      (apply mergeNamed_keys_nodup) <;>
      first
        | (apply filter_keys_nodup; assumption)
        | (simp [fetch_named_items_from_sql, hn, emptyEnriched])
  · refine ⟨?_, ?_, ?_, ?_, ?_, ?_⟩ <;>
      (apply mergeNamed_keys_nodup) <;>
      first
        | (apply filter_keys_nodup; assumption)
        | (simp only [fetch_named_items_from_sql, hn, if_false];
           apply filter_keys_nodup; assumption)

/-- Witness for C4 on a store whose views have unique keys: a weapon hit
plus a named lookup that re-finds the same weapon still yields
duplicate-free key lists in every variant. -/
theorem c4_witness :
    ((([⟨7, S "The Fixer", S "Rifle", []⟩] : List WeaponRow).map (fun w => w.id)).Nodup
     ∧ (([] : List ArmorRow).map (fun a => a.id)).Nodup
     ∧ (([⟨3, S "Tank Killer", 1⟩] : List PerkRow).map (fun p => p.perk_id)).Nodup)
    ∧ allKeysNodup (enrich_with_sql
        ⟨[⟨7, S "The Fixer", S "Rifle", []⟩], [], [⟨3, S "Tank Killer", 1⟩], [], [], []⟩
        [⟨"weapon", 7⟩]
        (some (fetch_named_items_from_sql
          ⟨[⟨7, S "The Fixer", S "Rifle", []⟩], [], [⟨3, S "Tank Killer", 1⟩], [], [], []⟩
          [S "The Fixer"]))) :=
  ⟨⟨by decide, by decide, by decide⟩,
   c4_enrich_merge_nodup
     ⟨[⟨7, S "The Fixer", S "Rifle", []⟩], [], [⟨3, S "Tank Killer", 1⟩], [], [], []⟩
     [⟨"weapon", 7⟩] [S "The Fixer"]
     (by decide) (by decide) (by decide) (by decide) (by decide) (by decide)⟩

/-- C6: on the exact path, when the clarification guard passes and the
generated query executes successfully with zero rows, the inner engine
returns a normal answer whose text states no data was found and carries
the executed query; no error is returned and the inner history is left
unchanged. -/
theorem c6_zero_rows (question : List Char) (skip_classification : Bool)
    (history : List SqlTurn) (o : SqlOracles)
    (hguard : skip_classification = true
      ∨ vagueClassifications.contains o.classification.classification = false)
    (hexec : o.exec_result = Except.ok []) :
    (sql_ask question skip_classification history o).1
        = InnerResult.answer (noDataContent o.gen_sql)
    ∧ containsSub o.gen_sql (noDataContent o.gen_sql) = true
    ∧ containsSub (S "No data found") (noDataContent o.gen_sql) = true
    ∧ (∀ e, (sql_ask question skip_classification history o).1 ≠ InnerResult.error e)
    ∧ (sql_ask question skip_classification history o).2 = history := by
  have hcond : (!skip_classification
      && vagueClassifications.contains o.classification.classification) = false := by
    rcases hguard with h | h
    · rw [h]; rfl
    · rw [h, Bool.and_false]
  have h1 : sql_ask question skip_classification history o
      = (InnerResult.answer (noDataContent o.gen_sql), history) := by
    unfold sql_ask
    rw [hcond]
    simp [hexec]
  refine ⟨by rw [h1], ?_, ?_, ?_, by rw [h1]⟩
  · unfold noDataContent
    exact containsSub_mid _ _ _
  · unfold noDataContent
    apply containsSub_of_isPref
    apply isPref_extend
    apply isPref_extend
    decide
  · intro e
    rw [h1]
    simp

/-- Witness for C6: the concrete oracle bundle `oracles0` executes
"SELECT 1" to zero rows and yields the explicit no-data answer. -/
theorem c6_witness :
    (sql_ask (S "list all shotguns") true [] oracles0.sql).1
        = InnerResult.answer (noDataContent oracles0.sql.gen_sql)
    ∧ containsSub oracles0.sql.gen_sql (noDataContent oracles0.sql.gen_sql) = true
    ∧ containsSub (S "No data found") (noDataContent oracles0.sql.gen_sql) = true
    ∧ (∀ e, (sql_ask (S "list all shotguns") true [] oracles0.sql).1 ≠ InnerResult.error e)
    ∧ (sql_ask (S "list all shotguns") true [] oracles0.sql).2 = [] :=
  c6_zero_rows (S "list all shotguns") true [] oracles0.sql (Or.inl rfl) rfl

/-- C7 counterexample: for the question `Tell me about "The Fixer"`, the
extractor's output contains the candidate "The Fixer" twice (once from the
two-word capitalized-phrase pass, once from the quoted pass) — the output
is not deduplicated. -/
theorem c7_counterexample : ¬ ((extract_named_items qFixer).Nodup) := by
  decide

/-- C7 as amended: `extract_named_items` returns the stoplist- and
length-filtered candidate list WITHOUT deduplication, so a candidate can
appear twice; read as a set, a question quoting "The Fixer" still yields
exactly the singleton set: every returned candidate equals "The Fixer" and
the candidate list is nonempty. -/
theorem c7_fixer_candidates :
    extract_named_items qFixer = [S "The Fixer", S "The Fixer"]
    ∧ extract_named_items qFixer ≠ []
    ∧ (∀ x ∈ extract_named_items qFixer, x = S "The Fixer") := by
  refine ⟨by decide, by decide, by decide⟩

/-- C9: the number of records the formatter serializes for one variant
equals the full list length when the search is category-complete or the
list has at most 15 items, and is exactly the 10-record cap otherwise. -/
theorem c9_variant_cap {α : Type} (is_category_search : Bool) (items : List α) :
    (takeLimit is_category_search items).length
      = if is_category_search = true ∨ items.length ≤ 15 then items.length else 10 := by
  unfold takeLimit variantLimit
  by_cases h : is_category_search = true ∨ items.length ≤ 15
  · rw [if_pos h, List.take_length]
  · rw [if_neg h, List.length_take]
    push_neg at h
    omega

/-- C10: for every question classified EXACT, `ask` leaves the hybrid
engine's own conversation history unchanged and records the turn only via
the inner engine's separate history; and every turn the hybrid history
ever holds carries method "vector" (only the conceptual-path formatter
appends to it), so a later conceptual-path preamble contains only prior
conceptual-path turns. -/
theorem c10_exact_frame (question : List Char) (st : SysState) (o : HybridOracles)
    (hvec : ∀ t ∈ st.hybrid_history, t.method = "vector") :
    (classify_intent question = "EXACT" →
      ((hybrid_ask question st o).2.hybrid_history = st.hybrid_history
       ∧ (hybrid_ask question st o).2.sql_history
           = (sql_ask question false st.sql_history o.sql).2))
    ∧ (∀ t ∈ (hybrid_ask question st o).2.hybrid_history, t.method = "vector") := by
  by_cases h : classify_intent question = "EXACT"
  · have hb : (classify_intent question == "EXACT") = true := beq_iff_eq.mpr h
    have hstate : (hybrid_ask question st o).2
        = { st with sql_history := (sql_ask question false st.sql_history o.sql).2 } := by
      simp [hybrid_ask, hb]
    refine ⟨fun _ => ⟨?_, ?_⟩, ?_⟩
    · rw [hstate]
    · rw [hstate]
    · rw [hstate]
      exact hvec
  · have hb : (classify_intent question == "EXACT") = false := by simpa using h
    refine ⟨fun hEx => absurd hEx h, ?_⟩
    intro t ht
    cases hd : detect_category_filter question with
    | some cf =>
      simp only [hybrid_ask, hb, hd, format_vector_results, Bool.false_eq_true,
        if_false] at ht
      rcases List.mem_append.mp ht with h1 | h2
      · exact hvec t h1
      · rw [List.mem_singleton.mp h2]
    | none =>
      simp only [hybrid_ask, hb, hd, format_vector_results, Bool.false_eq_true,
        if_false] at ht
      rcases List.mem_append.mp ht with h1 | h2
      · exact hvec t h1
      · rw [List.mem_singleton.mp h2]

/-- Witness for C10 at the EXACT-classified question "How many rifles are
there" from the empty session state: the hybrid history stays empty, the
inner history is the inner engine's, and the all-vector invariant holds. -/
theorem c10_witness :
    ((hybrid_ask (S "How many rifles are there") st0 oracles0).2.hybrid_history
        = st0.hybrid_history
     ∧ (hybrid_ask (S "How many rifles are there") st0 oracles0).2.sql_history
        = (sql_ask (S "How many rifles are there") false st0.sql_history oracles0.sql).2)
    ∧ (∀ t ∈ (hybrid_ask (S "How many rifles are there") st0 oracles0).2.hybrid_history,
        t.method = "vector") :=
  ⟨(c10_exact_frame _ st0 oracles0 (by decide)).1 (by decide),
   (c10_exact_frame _ st0 oracles0 (by decide)).2⟩
